import Mathlib

/-!
# Verification of the seb-unblocker-v7 proxy core

A shallow embedding, in Lean 4, of the components of the repository that the
frozen claims are about:

* the HTML URL-rewrite engine (`src/proxy/rewrite.js`): `shouldIgnoreUrl`,
  `proxifyUrl`, `absify` and the per-element rewrite blocks of `rewriteHtml`;
* the throttler (`throttler.js`): `registerRequest` / `isAllowed` /
  `throttleMiddleware`;
* the fetch client (`src/proxy/fetcher.js`): `_fetchWithRetries`;
* the resource cache (`resourceCache.js`): `ResourceCache.set` eviction;
* the cookie jar (`src/proxy/cookies.js`): `parseSetCookie` / `getCookies`;
* the websocket hub (`src/proxy/websocketHandler.js`): the connection map
  transitions installed by `initWebSocketServer`.

JavaScript strings are modelled as Lean `String`s, JS `Map`s as insertion
ordered association lists (matching JS `Map` iteration order), timestamps as
`Int`, and the WHATWG `new URL(ref, base)` resolution used by `absify` as an
executable RFC 3986-style resolver covering the URL shapes the proxy meets
(absolute special URLs, scheme-relative, root-relative, query-only,
fragment-only and relative-path references, and non-special schemes such as
`javascript:` / `mailto:`, which keep their text after the colon verbatim).
-/

/-! ## JavaScript string primitives -/

/-- JS whitespace as used by `String.prototype.trim` (the characters that
occur in practice: space, tab, newline, carriage return, form feed,
vertical tab). -/
def jsWhitespace (c : Char) : Bool :=
  c = ' ' || c = '\t' || c = '\n' || c = '\r' || c = '\x0c' || c = '\x0b'

/-- JS `String.prototype.trim`: strip leading and trailing whitespace. -/
def jsTrim (s : String) : String :=
  let l := (s.data.dropWhile jsWhitespace).reverse.dropWhile jsWhitespace
  String.mk l.reverse

/-- JS truthiness of an optional string: `undefined` and `''` are falsy. -/
def jsTruthy : Option String → Bool
  | none => false
  | some s => s ≠ ""

/-- JS `a || b` on optional strings (`''` and `undefined` fall through). -/
def jsOr (a b : Option String) : Option String :=
  if jsTruthy a then a else b

/-- ASCII lower-casing, as used to model case-insensitive matches. -/
def asciiLower (s : String) : String :=
  String.mk (s.data.map Char.toLower)

/-- Structural test that `pre` heads `s` (used for JS `startsWith`). -/
def strHasPre : List Char → List Char → Bool
  | [], _ => true
  | _ :: _, [] => false
  | c :: cs, d :: ds => c = d && strHasPre cs ds

/-- JS `s.startsWith(pre)`. -/
def jsStartsWith (s pre : String) : Bool :=
  strHasPre pre.data s.data

/-- JS `String.prototype.split` with a one-character separator, on
character lists: every separator occurrence cuts, empty fields kept. -/
def splitCharAux (sep : Char) : List Char → List (List Char)
  | [] => [[]]
  | c :: rest =>
    match splitCharAux sep rest with
    | [] => [[]]
    | h :: t => if c = sep then [] :: h :: t else (c :: h) :: t

/-- JS `s.split(sep)` for a one-character separator string. -/
def jsSplit (sep : Char) (s : String) : List String :=
  (splitCharAux sep s.data).map String.mk

/-- `p.split(/\s+/, 2)` on a trimmed srcset candidate: the URL field and,
when present, the width/density descriptor (further fields are dropped by
the `limit = 2` argument of the JS `split`). -/
def wsSplit2 (s : String) : String × Option String :=
  let l := s.data
  let u := l.takeWhile (fun c => !jsWhitespace c)
  let rest := l.dropWhile (fun c => !jsWhitespace c)
  if rest.isEmpty then (String.mk u, none)
  else
    let d := (rest.dropWhile jsWhitespace).takeWhile (fun c => !jsWhitespace c)
    (String.mk u, some (String.mk d))

/-! ## `encodeURIComponent` -/

/-- The characters `encodeURIComponent` leaves unescaped:
`A-Z a-z 0-9 - _ . ! ~ * ' ( )`. -/
def uriUnescaped (c : Char) : Bool :=
  (('A' ≤ c && c ≤ 'Z') || ('a' ≤ c && c ≤ 'z') || ('0' ≤ c && c ≤ '9')
    || c = '-' || c = '_' || c = '.' || c = '!' || c = '~' || c = '*'
    || c.toNat = 39 || c = '(' || c = ')')

/-- One upper-case hex digit. -/
def hexDigit (n : Nat) : Char :=
  if n < 10 then Char.ofNat ('0'.toNat + n)
  else Char.ofNat ('A'.toNat + (n - 10))

/-- `%XY` escape of one byte. -/
def percentByte (b : Nat) : List Char :=
  ['%', hexDigit (b / 16 % 16), hexDigit (b % 16)]

/-- UTF-8 bytes of one code point. -/
def utf8Bytes (c : Char) : List Nat :=
  let n := c.toNat
  if n < 0x80 then [n]
  else if n < 0x800 then [0xC0 + n / 64, 0x80 + n % 64]
  else if n < 0x10000 then
    [0xE0 + n / 4096, 0x80 + n / 64 % 64, 0x80 + n % 64]
  else
    [0xF0 + n / 262144, 0x80 + n / 4096 % 64, 0x80 + n / 64 % 64, 0x80 + n % 64]

/-- JS `encodeURIComponent`: unescaped characters pass through, everything
else is percent-encoded byte-wise from its UTF-8 encoding. -/
def encodeURIComponent (s : String) : String :=
  String.mk (s.data.flatMap fun c =>
    if uriUnescaped c then [c] else (utf8Bytes c).flatMap percentByte)

/-! ## URL model (`new URL(ref, base)` as used by `absify`) -/

/-- A parsed URL.  Special (hosted) schemes carry `host` / `path` / `query` /
`fragment`; non-special schemes (`javascript:`, `mailto:`, `data:`, …) keep
the raw text after the colon in `rawRest`. -/
structure Url where
  scheme : String
  rawRest : Option String
  host : String
  path : String
  query : Option String
  fragment : Option String
deriving Repr, DecidableEq

/-- The WHATWG special schemes that carry an authority. -/
def specialSchemes : List String := ["http", "https", "ws", "wss", "ftp", "file"]

/-- Is `pre` a valid scheme spelling (letter, then letters/digits/`+`/`-`/`.`)? -/
def validScheme (pre : List Char) : Bool :=
  match pre with
  | [] => false
  | c :: rest =>
    c.isAlpha && rest.all (fun d => d.isAlpha || d.isDigit || d = '+' || d = '-' || d = '.')

/-- Leading scheme of a URL string, when present. -/
def schemeOf (s : String) : Option String :=
  let pre := s.data.takeWhile (· ≠ ':')
  if pre.length < s.data.length && validScheme pre then
    some (asciiLower (String.mk pre))
  else none

/-- Split `s` at the first occurrence of `c`: the part before, and the part
after (without `c`) when `c` occurs. -/
def splitFirst (s : String) (c : Char) : String × Option String :=
  let pre := s.data.takeWhile (· ≠ c)
  if pre.length < s.data.length then
    (String.mk pre, some (String.mk (s.data.drop (pre.length + 1))))
  else (s, none)

/-- Dot-segment removal over the `/`-separated segments of a path
(`.` skipped, `..` pops; a trailing `.`/`..` keeps the trailing slash). -/
def dotSegs : List String → List String → List String
  | acc, [] => acc
  | acc, [seg] =>
    if seg = "." then acc ++ [""]
    else if seg = ".." then acc.dropLast ++ [""]
    else acc ++ [seg]
  | acc, seg :: rest =>
    if seg = "." then dotSegs acc rest
    else if seg = ".." then dotSegs acc.dropLast rest
    else dotSegs (acc ++ [seg]) rest

/-- `remove_dot_segments` on an absolute path. -/
def removeDotSegments (p : String) : String :=
  if jsStartsWith p "/" then
    "/" ++ String.intercalate "/" (dotSegs [] (jsSplit '/' (p.drop 1)))
  else p

/-- Split the path-query-fragment tail of a URL (the text after the
authority) into its three components, normalising dot segments. -/
def parseTail (s : String) : String × Option String × Option String :=
  let (beforeFrag, frag) := splitFirst s '#'
  let (path, query) := splitFirst beforeFrag '?'
  (removeDotSegments path, query, frag)

/-- Parse an absolute URL string.  Special schemes require `//` and a
non-empty host; non-special schemes keep the remainder verbatim. -/
def parseAbsolute (s : String) : Option Url := do
  let sc ← schemeOf s
  let rest := s.drop (sc.length + 1)
  if specialSchemes.contains sc then
    if jsStartsWith rest "//" then
      let afterSlashes := rest.drop 2
      let auth := String.mk (afterSlashes.data.takeWhile
        (fun c => c ≠ '/' && c ≠ '?' && c ≠ '#'))
      if auth = "" then none
      else
        let (path, query, frag) := parseTail (afterSlashes.drop auth.length)
        some ⟨sc, none, asciiLower auth, path, query, frag⟩
    else none
  else
    some ⟨sc, some rest, "", "", none, none⟩

/-- Serialize a `Url` back to its `href` string. -/
def Url.href (u : Url) : String :=
  match u.rawRest with
  | some raw => u.scheme ++ ":" ++ raw
  | none =>
    u.scheme ++ "://" ++ u.host
      ++ (if u.path = "" then "/" else u.path)
      ++ (match u.query with | some q => "?" ++ q | none => "")
      ++ (match u.fragment with | some f => "#" ++ f | none => "")

/-- Directory part of a base path (up to and including the last `/`),
used when merging a relative-path reference. -/
def dirOf (p : String) : String :=
  let l := p.data
  let cut := (l.reverse.dropWhile (· ≠ '/')).reverse
  if cut.isEmpty then "/" else String.mk cut

/-- `new URL(ref, base)` reference resolution. -/
def resolveUrl (ref : String) (base : Url) : Option Url :=
  match schemeOf ref with
  | some _ => parseAbsolute ref
  | none =>
    if base.rawRest.isSome then none
    else if jsStartsWith ref "//" then
      parseAbsolute (base.scheme ++ ":" ++ ref)
    else if jsStartsWith ref "/" then
      let (path, query, frag) := parseTail ref
      some ⟨base.scheme, none, base.host, path, query, frag⟩
    else if jsStartsWith ref "#" then
      some { base with fragment := some (ref.drop 1) }
    else if ref = "" then
      some { base with fragment := none }
    else if jsStartsWith ref "?" then
      let (beforeFrag, frag) := splitFirst ref '#'
      some { base with query := some (beforeFrag.drop 1), fragment := frag }
    else
      let (path, query, frag) := parseTail (dirOf base.path ++ ref)
      some ⟨base.scheme, none, base.host, path, query, frag⟩

/-- `absify(urlOrPath, base)` from `rewrite.js`:
`try { return new URL(urlOrPath, base).href } catch { return null }`. -/
def absify (urlOrPath : String) (base : String) : Option String := do
  let b ← parseAbsolute base
  let u ← resolveUrl urlOrPath b
  pure u.href

/-! ## HTML rewrite engine (`rewrite.js`)

The engine parses HTML with cheerio and then mutates attributes per element
kind.  We embed the post-parse document as a list of elements (tag plus
insertion-ordered attribute list) together with the count of navigation-shim
scripts appended to the body; the inline `<style>` block / `style` attribute
handling (delegated to `cssParser`) is outside this model, as no claim
touches it. -/

/-- The option record of `rewriteHtml` (`DEFAULT_OPTS` in `rewrite.js`). -/
structure RewriteOpts where
  resourceRoute : String
  proxyRoute : String
deriving Repr, DecidableEq

/-- `DEFAULT_OPTS = { resourceRoute: '/resource?url=', proxyRoute: '/proxy?url=' }`. -/
def DEFAULT_OPTS : RewriteOpts := ⟨"/resource?url=", "/proxy?url="⟩

/-- `shouldIgnoreUrl(href)` from `rewrite.js`: empty, fragment-only,
`javascript:` or `mailto:` (case-insensitive) references are ignored. -/
def shouldIgnoreUrl (href : String) : Bool :=
  if href = "" then true
  else
    let trimmed := jsTrim href
    if trimmed = "" || jsStartsWith trimmed "#" then true
    else if jsStartsWith (asciiLower trimmed) "javascript:" then true
    else if jsStartsWith (asciiLower trimmed) "mailto:" then true
    else false

/-- `proxifyUrl(absUrl, isAsset, opts)` from `rewrite.js`: route prefix plus
the percent-encoded absolute URL. -/
def proxifyUrl (absUrl : String) (isAsset : Bool) (opts : RewriteOpts) : String :=
  (if isAsset then opts.resourceRoute else opts.proxyRoute) ++ encodeURIComponent absUrl

/-- An element of the parsed document: tag name and attribute list in
insertion order. -/
structure Element where
  tag : String
  attrs : List (String × String)
deriving Repr, DecidableEq

/-- cheerio `$el.attr(name)`. -/
def lookupAttr (n : String) (attrs : List (String × String)) : Option String :=
  (attrs.find? (fun p => p.1 = n)).map (·.2)

/-- cheerio `$el.attr(name, v)`: replace in place, else append. -/
def setAttr (n v : String) : List (String × String) → List (String × String)
  | [] => [(n, v)]
  | p :: rest => if p.1 = n then (n, v) :: rest else p :: setAttr n v rest

/-- cheerio `$el.removeAttr(name)`. -/
def removeAttr (n : String) (attrs : List (String × String)) : List (String × String) :=
  attrs.filter (fun p => p.1 ≠ n)

/-- The `$('a[href]').each` block: skip ignored references, resolve, and
rewrite through the navigation route. -/
def rewriteA (opts : RewriteOpts) (base : String) (el : Element) : Element :=
  match lookupAttr "href" el.attrs with
  | none => el
  | some href =>
    if shouldIgnoreUrl href then el
    else match absify href base with
      | none => el
      | some abs => { el with attrs := setAttr "href" (proxifyUrl abs false opts) el.attrs }

/-- The `$('link[href]').each` block: resolve and rewrite through the
resource route (only a falsy href is skipped). -/
def rewriteLink (opts : RewriteOpts) (base : String) (el : Element) : Element :=
  match lookupAttr "href" el.attrs with
  | none => el
  | some href =>
    if href = "" then el
    else match absify href base with
      | none => el
      | some abs => { el with attrs := setAttr "href" (proxifyUrl abs true opts) el.attrs }

/-- The `$('script[src]').each` block: resource route, then drop the
`integrity` / `crossorigin` attributes. -/
def rewriteScript (opts : RewriteOpts) (base : String) (el : Element) : Element :=
  match lookupAttr "src" el.attrs with
  | none => el
  | some src =>
    if src = "" then el
    else match absify src base with
      | none => el
      | some abs =>
        { el with attrs :=
            removeAttr "crossorigin" (removeAttr "integrity"
              (setAttr "src" (proxifyUrl abs true opts) el.attrs)) }

/-- One srcset candidate: `p.split(/\s+/, 2)`, resolve the URL field, keep
the candidate verbatim when resolution fails, else proxify and re-attach
the descriptor. -/
def rewriteSrcsetPart (opts : RewriteOpts) (base : String) (p : String) : String :=
  let (u, desc) := wsSplit2 p
  match absify u base with
  | none => p
  | some abs =>
    proxifyUrl abs true opts
      ++ (match desc with
          | some d => if d = "" then "" else " " ++ d
          | none => "")

/-- The srcset handling shared by the `img` and `source` blocks: split on
commas, trim, rewrite each candidate, re-join with `', '`. -/
def rewriteSrcsetValue (opts : RewriteOpts) (base : String) (srcset : String) : String :=
  String.intercalate ", "
    (((jsSplit ',' srcset).map jsTrim).map (rewriteSrcsetPart opts base))

/-- The `if (src) { … $el.attr('src', …) }` step shared by the `img` and
`source` blocks: a truthy `src` that resolves gets the resource route. -/
def imgSrcStage (opts : RewriteOpts) (base : String) (src : Option String)
    (a : List (String × String)) : List (String × String) :=
  match src with
  | some s =>
    if s = "" then a
    else match absify s base with
      | some abs => setAttr "src" (proxifyUrl abs true opts) a
      | none => a
  | none => a

/-- The `if (dataSrc) { … $el.attr('data-src', …) }` step of the `img`
block, `dataSrc` being the `data-src || data-lazy || data-original`
chain read from the original element. -/
def imgDataStage (opts : RewriteOpts) (base : String) (dsrc : Option String)
    (a : List (String × String)) : List (String × String) :=
  if jsTruthy dsrc then
    match absify (dsrc.getD "") base with
    | some abs2 => setAttr "data-src" (proxifyUrl abs2 true opts) a
    | none => a
  else a

/-- The `if (srcset) { … $el.attr('srcset', …) }` step shared by the `img`
and `source` blocks (the attribute is re-read from the element after the
earlier steps). -/
def srcsetStage (opts : RewriteOpts) (base : String)
    (a : List (String × String)) : List (String × String) :=
  match lookupAttr "srcset" a with
  | some ss =>
    if ss = "" then a
    else setAttr "srcset" (rewriteSrcsetValue opts base ss) a
  | none => a

/-- The `$('img').each` block: `src`, then the `data-src`/`data-lazy`/
`data-original` chain (written back to `data-src`), then `srcset`. -/
def rewriteImg (opts : RewriteOpts) (base : String) (el : Element) : Element :=
  let dataSrc := jsOr (jsOr (lookupAttr "data-src" el.attrs) (lookupAttr "data-lazy" el.attrs))
    (lookupAttr "data-original" el.attrs)
  { el with attrs := srcsetStage opts base (imgDataStage opts base dataSrc
      (imgSrcStage opts base (lookupAttr "src" el.attrs) el.attrs)) }

/-- The `$('source[srcset], source[src]').each` block. -/
def rewriteSourceEl (opts : RewriteOpts) (base : String) (el : Element) : Element :=
  { el with attrs :=
      srcsetStage opts base (imgSrcStage opts base (lookupAttr "src" el.attrs) el.attrs) }

/-- The `$('iframe[src]').each` block: navigation route, so the framed
document is itself rewritten. -/
def rewriteIframe (opts : RewriteOpts) (base : String) (el : Element) : Element :=
  match lookupAttr "src" el.attrs with
  | none => el
  | some src =>
    if src = "" then el
    else match absify src base with
      | none => el
      | some abs => { el with attrs := setAttr "src" (proxifyUrl abs false opts) el.attrs }

/-- The `$('form[action]').each` block: navigation route. -/
def rewriteFormEl (opts : RewriteOpts) (base : String) (el : Element) : Element :=
  match lookupAttr "action" el.attrs with
  | none => el
  | some action =>
    if action = "" then el
    else match absify action base with
      | none => el
      | some abs => { el with attrs := setAttr "action" (proxifyUrl abs false opts) el.attrs }

/-- Dispatch of the per-tag `.each` blocks of `rewriteHtml` (the selector
blocks touch disjoint tags, so per-element dispatch is faithful). -/
def rewriteElement (opts : RewriteOpts) (base : String) (el : Element) : Element :=
  if el.tag = "a" then rewriteA opts base el
  else if el.tag = "link" then rewriteLink opts base el
  else if el.tag = "script" then rewriteScript opts base el
  else if el.tag = "img" then rewriteImg opts base el
  else if el.tag = "source" then rewriteSourceEl opts base el
  else if el.tag = "iframe" then rewriteIframe opts base el
  else if el.tag = "form" then rewriteFormEl opts base el
  else el

/-- The parsed document: its elements, and the number of navigation-shim
scripts that have been appended to the body. -/
structure Doc where
  elements : List Element
  shims : Nat
deriving Repr, DecidableEq

/-- `rewriteHtml(html, baseUrl, opts)`: drop `<base>` tags, rewrite every
element, and append one navigation shim to the body. -/
def rewriteHtml (opts : RewriteOpts) (base : String) (doc : Doc) : Doc :=
  { elements := (doc.elements.filter (fun el => el.tag ≠ "base")).map (rewriteElement opts base),
    shims := doc.shims + 1 }

/-! ## Throttler (`throttler.js`)

`ipStore` is a `Map` from IP to `{ timestamps }`; we embed it as an
association list from IP to the timestamp list (push appends), with the
clock passed explicitly. -/

/-- `const RATE_LIMIT = 100` (max requests per window). -/
def RATE_LIMIT : Nat := 100

/-- `const WINDOW_MS = 60 * 1000`. -/
def WINDOW_MS : Int := 60 * 1000

/-- `const bursts = 5` (allowed burst). -/
def bursts : Nat := 5

/-- The throttler's `ipStore`: IP to recorded request timestamps. -/
abbrev IpStore := List (String × List Int)

/-- `ipStore.get(ip)`, as the timestamp list (`none` when absent). -/
def ipTimestamps (store : IpStore) (ip : String) : Option (List Int) :=
  (store.find? (fun p => p.1 = ip)).map (·.2)

/-- `registerRequest(ip)`: create the entry when missing, then push `now`. -/
def registerRequest (store : IpStore) (ip : String) (now : Int) : IpStore :=
  match store.find? (fun p => p.1 = ip) with
  | some _ => store.map (fun p => if p.1 = ip then (p.1, p.2 ++ [now]) else p)
  | none => store ++ [(ip, [now])]

/-- `isAllowed(ip)`: count the timestamps inside the trailing window and
compare with `RATE_LIMIT + bursts`. -/
def isAllowed (store : IpStore) (ip : String) (now : Int) : Bool :=
  match ipTimestamps store ip with
  | none => true
  | some ts =>
    ((ts.filter (fun t => now - t < WINDOW_MS)).length ≤ RATE_LIMIT + bursts : Bool)

/-- `throttleMiddleware`: register the request, then admit or 429. -/
def throttleStep (store : IpStore) (ip : String) (now : Int) : IpStore × Bool :=
  let store' := registerRequest store ip now
  (store', isAllowed store' ip now)

/-- The store and last decision after `n` requests of a burst arriving at
one instant `t` from one IP, starting from an empty store. -/
def burstRun (ip : String) (t : Int) : Nat → IpStore × Bool
  | 0 => ([], true)
  | n + 1 => throttleStep (burstRun ip t n).1 ip t

/-- The decision the throttler gives the `n`-th request of such a burst. -/
def nthBurstDecision (n : Nat) (ip : String) (t : Int) : Bool :=
  (burstRun ip t n).2

/-! ## Fetch client (`fetcher.js`)

`_fetchWithRetries` is embedded with the outcome of each attempt supplied
by an oracle `attempts : Nat → Option FetchResponse` (`none` is a
transport-level failure: timeout/abort, connection error; `some r` is an
HTTP response of any status) and the jitter of each backoff supplied by
`jitter : Nat → Nat` (`Math.floor(Math.random() * 200)`, so `< 200`).
The returned list collects the backoff sleeps that were performed. -/

/-- An upstream HTTP response: status, raw headers, body text. -/
structure FetchResponse where
  status : Nat
  headers : List (String × String)
  body : String
deriving Repr, DecidableEq

/-- The record `_fetchWithRetries` resolves with. -/
structure FetchResult where
  ok : Bool
  status : Nat
  headers : List (String × String)
  body : String
deriving Repr, DecidableEq

/-- `{ ok: res.ok, status: res.status, headers: res.headers.raw(), text }`. -/
def mkFetchResult (r : FetchResponse) : FetchResult :=
  ⟨decide (200 ≤ r.status ∧ r.status < 300), r.status, r.headers, r.body⟩

/-- The retry loop of `_fetchWithRetries`, from attempt index `attempt`:
a response is returned immediately; a transport failure either exhausts the
attempts (error) or sleeps `200 * 2 ^ attempt + jitter attempt` and retries. -/
def fetchGo (maxAttempts : Nat) (attempts : Nat → Option FetchResponse)
    (jitter : Nat → Nat) (attempt : Nat) (sleeps : List Nat) :
    Except String FetchResult × List Nat :=
  match attempts attempt with
  | some r => (Except.ok (mkFetchResult r), sleeps)
  | none =>
    if _h : attempt + 1 ≥ maxAttempts then (Except.error "fetch failed", sleeps)
    else fetchGo maxAttempts attempts jitter (attempt + 1)
      (sleeps ++ [200 * 2 ^ attempt + jitter attempt])
termination_by maxAttempts - attempt
decreasing_by omega

/-- `_fetchWithRetries` with `maxAttempts = Math.max(1, this.maxRetries)`. -/
def fetchWithRetries (maxRetries : Nat) (attempts : Nat → Option FetchResponse)
    (jitter : Nat → Nat) : Except String FetchResult × List Nat :=
  fetchGo (max 1 maxRetries) attempts jitter 0 []

/-! ## Resource cache (`resourceCache.js`)

The memory tier is a JS `Map` from key to `{ data, expire }`; we embed it
as an insertion-ordered association list (JS `Map.set` updates in place,
`Map` iteration follows insertion order, and V8's `Array.prototype.sort`
is stable, so `sort(...)[0]` is the first-inserted entry attaining the
minimal expire). -/

/-- A memory-tier entry `{ data, expire }`. -/
structure CacheEntry where
  data : String
  expire : Int
deriving Repr, DecidableEq

/-- The memory tier. -/
abbrev MemCache := List (String × CacheEntry)

/-- JS `Map.set`: replace in place, else append. -/
def memSet (k : String) (e : CacheEntry) : MemCache → MemCache
  | [] => [(k, e)]
  | p :: rest => if p.1 = k then (k, e) :: rest else p :: memSet k e rest

/-- JS `Map.delete`. -/
def memDelete (k : String) (m : MemCache) : MemCache :=
  m.filter (fun p => p.1 ≠ k)

/-- `Array.from(entries).sort((a, b) => a.expire - b.expire)[0]`: the
first-inserted entry attaining the minimal expire. -/
def minExpireEntry : MemCache → Option (String × CacheEntry)
  | [] => none
  | p :: rest =>
    some (rest.foldl (fun best q => if q.2.expire < best.2.expire then q else best) p)

/-- `ResourceCache.set(key, data, ttl)` restricted to the memory tier (the
disk write is asynchronous, best-effort, and not part of any claim):
insert, then, when the bound is exceeded, evict the soonest-expiring entry. -/
def cacheSet (m : MemCache) (maxMemoryItems : Nat) (key : String) (d : String)
    (ttl : Option Int) (defaultTTL now : Int) : MemCache :=
  let expire := now + ttl.getD defaultTTL
  let m' := memSet key ⟨d, expire⟩ m
  if m'.length > maxMemoryItems then
    match minExpireEntry m' with
    | some p => memDelete p.1 m'
    | none => m'
  else m'

/-! ## Cookie jar (`cookies.js`) -/

/-- The parsed cookie object of `parseSetCookie`.  `value` is `none` when
the name-value pair held no `=` (JS `undefined`); `expires` carries the
timestamp produced by `new Date(...)`, supplied by a date-parse oracle. -/
structure Cookie where
  name : String
  value : Option String
  path : String
  domain : Option String
  expires : Option Int
  secure : Bool
  httpOnly : Bool
  sameSite : Option String
deriving Repr, DecidableEq

/-- `parseSetCookie(header)`: split the header on `;`, trim the parts, take
`name` / `value` as the first two `=`-separated fields of the first part,
then fold the attribute parts.  `parseDate` models `new Date(string)`. -/
def parseSetCookie (parseDate : String → Int) (header : String) : Option Cookie :=
  if header = "" then none
  else
    let parts := (jsSplit ';' header).map jsTrim
    match parts with
    | [] => none
    | nameValue :: attributes =>
      let nv := jsSplit '=' nameValue
      let name := nv.headD ""
      let value := nv[1]?
      let initial : Cookie := ⟨name, value, "/", none, none, false, false, some "Lax"⟩
      some (attributes.foldl (fun cookie attr =>
        let fields := jsSplit '=' attr
        let attrName := fields.headD ""
        let attrValue := fields[1]?
        if asciiLower attrName = "path" then
          { cookie with path := if jsTruthy attrValue then attrValue.getD "/" else "/" }
        else if asciiLower attrName = "domain" then
          { cookie with domain := attrValue }
        else if asciiLower attrName = "expires" then
          { cookie with expires := attrValue.map parseDate }
        else if asciiLower attrName = "secure" then
          { cookie with secure := true }
        else if asciiLower attrName = "httponly" then
          { cookie with httpOnly := true }
        else if asciiLower attrName = "samesite" then
          { cookie with sameSite := attrValue }
        else cookie) initial)

/-- The `validCookies` filter of `getCookies`:
`sessionCookies.filter(c => !c.expires || new Date() < c.expires)`. -/
def validCookies (now : Int) (sessionCookies : List Cookie) : List Cookie :=
  sessionCookies.filter (fun c =>
    match c.expires with
    | none => true
    | some e => now < e)

/-- One `name=value` pair as serialized by `getCookies` (an absent value
prints as JS `undefined`). -/
def cookiePair (c : Cookie) : String :=
  c.name ++ "=" ++ (c.value.getD "undefined")

/-- `getCookies(sessionId)` for a session holding `sessionCookies`:
filter out expired cookies, then join `name=value` pairs with `'; '`. -/
def getCookies (now : Int) (sessionCookies : List Cookie) : String :=
  String.intercalate "; " ((validCookies now sessionCookies).map cookiePair)

/-! ## Notification hub (`websocketHandler.js`)

`initWebSocketServer` installs, per connection, a `close` handler that
deletes the `activeConnections` entry and an `error` handler that only
logs.  We embed `activeConnections` as an association list from session id
to transport handle and the handlers as a transition function on the
events a connection can emit. -/

/-- An event observed by the hub: a new connection (with its fresh session
id and transport handle), a close, or an error. -/
inductive WsEvent where
  | connect (sessionId : String) (handle : Nat)
  | close (sessionId : String)
  | error (sessionId : String)
deriving Repr, DecidableEq

/-- The `activeConnections` map. -/
abbrev ConnMap := List (String × Nat)

/-- JS `Map.set` on the connection map. -/
def connSet (sid : String) (h : Nat) : ConnMap → ConnMap
  | [] => [(sid, h)]
  | p :: rest => if p.1 = sid then (sid, h) :: rest else p :: connSet sid h rest

/-- One hub transition: `connection` does `activeConnections.set`, the
`close` handler does `activeConnections.delete`, and the `error` handler
only logs (the map is untouched). -/
def wsStep (m : ConnMap) : WsEvent → ConnMap
  | WsEvent.connect sid h => connSet sid h m
  | WsEvent.close sid => m.filter (fun p => p.1 ≠ sid)
  | WsEvent.error _ => m

/-- The connection map after a sequence of events. -/
def wsRun (m : ConnMap) (events : List WsEvent) : ConnMap :=
  events.foldl wsStep m

/-! ## Helper lemmas -/

theorem lookupAttr_setAttr_self (n v : String) (attrs : List (String × String)) :
    lookupAttr n (setAttr n v attrs) = some v := by
  induction attrs with
  | nil => simp [lookupAttr, setAttr]
  | cons p rest ih =>
    by_cases h : p.1 = n
    · simp [lookupAttr, setAttr, h]
    · simp [lookupAttr, setAttr, h, List.find?]
      simpa [lookupAttr] using ih

theorem lookupAttr_setAttr_ne (n m v : String) (attrs : List (String × String))
    (h : n ≠ m) : lookupAttr n (setAttr m v attrs) = lookupAttr n attrs := by
  induction attrs with
  | nil => simp [lookupAttr, setAttr, List.find?, Ne.symm h]
  | cons p rest ih =>
    by_cases hp : p.1 = m
    · have hpn : p.1 ≠ n := by rw [hp]; exact Ne.symm h
      simp [lookupAttr, setAttr, if_pos hp, List.find?, Ne.symm h, hpn]
    · by_cases hn : p.1 = n
      · simp [lookupAttr, setAttr, hp, List.find?, hn, h]
      · simp only [lookupAttr, setAttr, if_neg hp, List.find?, hn, decide_eq_true_eq,
          if_false]
        simp only [lookupAttr] at ih
        simpa [List.find?, hn] using ih

theorem lookupAttr_imgSrcStage_ne (opts : RewriteOpts) (base : String)
    (src : Option String) (a : List (String × String)) (n : String) (h : n ≠ "src") :
    lookupAttr n (imgSrcStage opts base src a) = lookupAttr n a := by
  cases src with
  | none => rfl
  | some s =>
    by_cases hs : s = ""
    · simp [imgSrcStage, hs]
    · cases habs : absify s base with
      | some abs => simp [imgSrcStage, hs, habs, lookupAttr_setAttr_ne _ _ _ _ h]
      | none => simp [imgSrcStage, hs, habs]

theorem lookupAttr_imgDataStage_ne (opts : RewriteOpts) (base : String)
    (dsrc : Option String) (a : List (String × String)) (n : String) (h : n ≠ "data-src") :
    lookupAttr n (imgDataStage opts base dsrc a) = lookupAttr n a := by
  by_cases hd : jsTruthy dsrc
  · cases habs : absify (dsrc.getD "") base with
    | some abs => simp [imgDataStage, hd, habs, lookupAttr_setAttr_ne _ _ _ _ h]
    | none => simp [imgDataStage, hd, habs]
  · simp [imgDataStage, hd]

theorem lookupAttr_srcsetStage_ne (opts : RewriteOpts) (base : String)
    (a : List (String × String)) (n : String) (h : n ≠ "srcset") :
    lookupAttr n (srcsetStage opts base a) = lookupAttr n a := by
  cases hss : lookupAttr "srcset" a with
  | none => simp [srcsetStage, hss]
  | some ss =>
    by_cases hsse : ss = ""
    · simp [srcsetStage, hss, hsse]
    · simp [srcsetStage, hss, hsse, lookupAttr_setAttr_ne _ _ _ _ h]

theorem imgSrcStage_empty (opts : RewriteOpts) (base : String)
    (a : List (String × String)) : imgSrcStage opts base (some "") a = a := by
  simp [imgSrcStage]

theorem imgSrcStage_rewrites (opts : RewriteOpts) (base s abs : String)
    (a : List (String × String)) (hs : s ≠ "") (habs : absify s base = some abs) :
    imgSrcStage opts base (some s) a = setAttr "src" (proxifyUrl abs true opts) a := by
  simp [imgSrcStage, hs, habs]

theorem imgDataStage_rewrites (opts : RewriteOpts) (base d abs : String)
    (a : List (String × String)) (hd : d ≠ "") (habs : absify d base = some abs) :
    imgDataStage opts base (some d) a = setAttr "data-src" (proxifyUrl abs true opts) a := by
  simp [imgDataStage, jsTruthy, hd, habs]

theorem srcsetStage_rewrites (opts : RewriteOpts) (base ss : String)
    (a : List (String × String)) (hss : lookupAttr "srcset" a = some ss) (hne : ss ≠ "") :
    srcsetStage opts base a = setAttr "srcset" (rewriteSrcsetValue opts base ss) a := by
  simp [srcsetStage, hss, hne]

theorem burstRun_store (ip : String) (t : Int) (n : Nat) :
    (burstRun ip t n).1 = if n = 0 then [] else [(ip, List.replicate n t)] := by
  induction n with
  | zero => simp [burstRun]
  | succ n ih =>
    rcases Nat.eq_zero_or_pos n with hn | hn
    · subst hn
      simp [burstRun, throttleStep, registerRequest, ih, List.find?, List.replicate]
    · have hne : n ≠ 0 := Nat.pos_iff_ne_zero.mp hn
      simp only [burstRun, throttleStep, ih, if_neg hne]
      simp [registerRequest, List.find?, List.replicate_succ']

theorem filter_replicate_true {p : Int → Bool} {a : Int} (hp : p a = true) (n : Nat) :
    (List.replicate n a).filter p = List.replicate n a := by
  induction n with
  | zero => simp
  | succ n ih => simp [List.replicate_succ, List.filter, hp, ih]

theorem throttler_threshold (ip : String) (t : Int) (n : Nat) :
    nthBurstDecision (n + 1) ip t = decide (n + 1 ≤ RATE_LIMIT + bursts) := by
  have hstore : registerRequest (burstRun ip t n).1 ip t = [(ip, List.replicate (n + 1) t)] := by
    rw [burstRun_store]
    rcases Nat.eq_zero_or_pos n with hn | hn
    · subst hn; simp [registerRequest, List.find?, List.replicate]
    · have hne : n ≠ 0 := Nat.pos_iff_ne_zero.mp hn
      simp [if_neg hne, registerRequest, List.find?, List.replicate_succ']
  show (throttleStep (burstRun ip t n).1 ip t).2 = _
  simp only [throttleStep, hstore, isAllowed, ipTimestamps, List.find?]
  have hfilt := filter_replicate_true
    (p := fun x => decide (t - x < WINDOW_MS)) (a := t) (by simp [WINDOW_MS]) (n + 1)
  simp [hfilt]

/-! ## Claim C4 -/

/-- C4, counterexample: with the source's constants (`RATE_LIMIT = 100`,
`bursts = 5`), the 66th request of a same-instant burst from one IP is
admitted, not rejected as the claim (which assumes a default limit of 60)
states. -/
theorem throttler_66th_request_allowed :
    nthBurstDecision 66 "203.0.113.7" 0 = true := by
  simpa [RATE_LIMIT, bursts] using throttler_threshold "203.0.113.7" 0 65

/-- C4 (amended): the rate limiter admits a request exactly when the number
of requests recorded for the IP within the trailing `WINDOW_MS` window
(including the one just registered) does not exceed `RATE_LIMIT + bursts`,
with `RATE_LIMIT = 100`, `bursts = 5` and `WINDOW_MS = 60s`; hence the
105th same-window request is accepted and the 106th rejected with the
429-style refusal. -/
theorem throttler_sliding_window_limit :
    (∀ (ip : String) (t : Int) (n : Nat),
      nthBurstDecision (n + 1) ip t = decide (n + 1 ≤ RATE_LIMIT + bursts)) ∧
    RATE_LIMIT = 100 ∧ bursts = 5 ∧ WINDOW_MS = 60 * 1000 ∧
    nthBurstDecision 105 "203.0.113.7" 0 = true ∧
    nthBurstDecision 106 "203.0.113.7" 0 = false := by
  refine ⟨throttler_threshold, rfl, rfl, rfl, ?_, ?_⟩
  · simpa [RATE_LIMIT, bursts] using throttler_threshold "203.0.113.7" 0 104
  · simpa [RATE_LIMIT, bursts] using throttler_threshold "203.0.113.7" 0 105

theorem mem_connSet (sid : String) (h : Nat) (m : ConnMap) :
    (sid, h) ∈ connSet sid h m := by
  induction m with
  | nil => simp [connSet]
  | cons p rest ih =>
    by_cases hp : p.1 = sid
    · simp [connSet, hp]
    · simp only [connSet, hp, if_false]
      exact List.mem_cons_of_mem p ih

/-! ## Claim C9 -/

/-- C9, counterexample: after a `connect` followed by an `error` event (and
no `close`), the connection map still holds the entry — the `error` handler
of `initWebSocketServer` only logs, it does not delete from
`activeConnections`, so the map is not restricted to live handles as the
claim states. -/
theorem ws_error_leaves_entry :
    wsRun [] [WsEvent.connect "s" 7, WsEvent.error "s"] = [("s", 7)] ∧
    ("s", 7) ∈ wsRun [] [WsEvent.connect "s" 7, WsEvent.error "s"] := by
  constructor <;> simp [wsRun, wsStep, connSet]

/-- C9 (amended): the connection map gains its entry at connect time and
the entry is removed when the connection closes; the `error` handler,
however, leaves the map unchanged (it only logs), so after an error without
a close the stale entry remains. -/
theorem ws_connection_map_transitions :
    (∀ (m : ConnMap) (sid : String) (h : Nat),
      (sid, h) ∈ wsStep m (WsEvent.connect sid h)) ∧
    (∀ (m : ConnMap) (sid : String), ∀ p ∈ wsStep m (WsEvent.close sid), p.1 ≠ sid) ∧
    (∀ (m : ConnMap) (sid : String), wsStep m (WsEvent.error sid) = m) := by
  refine ⟨fun m sid h => mem_connSet sid h m, ?_, fun m sid => rfl⟩
  intro m sid p hp
  simp only [wsStep, List.mem_filter] at hp
  simpa using hp.2

/-- C9 witness: the amended transition facts evaluated at concrete maps. -/
theorem ws_connection_map_transitions_witness :
    ("s", 7) ∈ wsStep [] (WsEvent.connect "s" 7) ∧
    ("t", 3).1 ≠ "s" ∧
    wsStep [("s", 7)] (WsEvent.error "s") = [("s", 7)] :=
  ⟨ws_connection_map_transitions.1 [] "s" 7,
   ws_connection_map_transitions.2.1 [("s", 7), ("t", 3)] "s" ("t", 3) (by simp [wsStep]),
   ws_connection_map_transitions.2.2 [("s", 7)] "s"⟩

/-! ## Claim C6 -/

/-- C6 (confirmed): when the HTTP response of the first attempt arrives —
whatever its status, in particular non-2xx — `_fetchWithRetries` returns it
immediately: no retry attempt is made, no backoff sleep happens, and the
status, headers and body are passed through unchanged. -/
theorem fetch_non2xx_passthrough (maxRetries : Nat)
    (attempts : Nat → Option FetchResponse) (jitter : Nat → Nat) (r : FetchResponse)
    (h0 : attempts 0 = some r) (hst : ¬(200 ≤ r.status ∧ r.status < 300)) :
    fetchWithRetries maxRetries attempts jitter = (Except.ok (mkFetchResult r), []) ∧
    (mkFetchResult r).ok = false ∧
    (mkFetchResult r).status = r.status ∧
    (mkFetchResult r).headers = r.headers ∧
    (mkFetchResult r).body = r.body := by
  refine ⟨?_, ?_, rfl, rfl, rfl⟩
  · rw [fetchWithRetries, fetchGo]
    simp [h0]
  · simpa [mkFetchResult] using decide_eq_false hst

/-- C6 witness: a 404 response on the first attempt is returned as-is with
no backoff sleeps. -/
theorem fetch_non2xx_passthrough_witness :
    fetchWithRetries 3
        (fun n => if n = 0 then some ⟨404, [("content-type", "text/html")], "missing"⟩ else none)
        (fun _ => 0)
      = (Except.ok ⟨false, 404, [("content-type", "text/html")], "missing"⟩, []) := by
  have h := fetch_non2xx_passthrough 3
    (fun n => if n = 0 then some ⟨404, [("content-type", "text/html")], "missing"⟩ else none)
    (fun _ => 0) ⟨404, [("content-type", "text/html")], "missing"⟩ rfl (by decide)
  simpa [mkFetchResult] using h.1

theorem fetchGo_sleeps_le (maxAttempts : Nat) (attempts : Nat → Option FetchResponse)
    (jitter : Nat → Nat) :
    ∀ (fuel attempt : Nat) (sleeps : List Nat), maxAttempts ≤ attempt + fuel →
    (fetchGo maxAttempts attempts jitter attempt sleeps).2.length
      ≤ sleeps.length + (maxAttempts - attempt - 1) := by
  intro fuel
  induction fuel with
  | zero =>
    intro attempt sleeps hle
    rw [fetchGo]
    cases hA : attempts attempt with
    | some r => simp
    | none =>
      have hge : attempt + 1 ≥ maxAttempts := by omega
      simp [hge]
  | succ fuel ih =>
    intro attempt sleeps hle
    rw [fetchGo]
    cases hA : attempts attempt with
    | some r => simp
    | none =>
      by_cases hge : attempt + 1 ≥ maxAttempts
      · simp [hge]
      · have hrec := ih (attempt + 1) (sleeps ++ [200 * 2 ^ attempt + jitter attempt])
          (by omega)
        simp only [hge, dif_neg, not_false_iff]
        simp only [List.length_append, List.length_cons, List.length_nil] at hrec
        omega

/-! ## Claim C5 -/

/-- C5 (confirmed): transport-level failures are retried with a jittered
exponential backoff of `200 * 2 ^ attempt + jitter` (`jitter` drawn from
`[0, 200)`), the total number of attempts never exceeds
`max(1, maxRetries)` (default 3), and a fetch whose first two attempts fail
and whose third attempt succeeds returns the successful body after exactly
the two backoff sleeps `200 * 2^0 + jitter 0` and `200 * 2^1 + jitter 1`. -/
theorem fetch_retry_backoff (attempts : Nat → Option FetchResponse)
    (jitter : Nat → Nat) (r : FetchResponse)
    (h0 : attempts 0 = none) (h1 : attempts 1 = none) (h2 : attempts 2 = some r)
    (hj : ∀ i, jitter i < 200) :
    fetchWithRetries 3 attempts jitter
      = (Except.ok (mkFetchResult r), [200 * 2 ^ 0 + jitter 0, 200 * 2 ^ 1 + jitter 1]) ∧
    (mkFetchResult r).body = r.body ∧
    (∀ i, 200 * 2 ^ i ≤ 200 * 2 ^ i + jitter i ∧
      200 * 2 ^ i + jitter i < 200 * 2 ^ i + 200) ∧
    (∀ (mr : Nat) (att : Nat → Option FetchResponse) (jit : Nat → Nat),
      (fetchWithRetries mr att jit).2.length + 1 ≤ max 1 mr) := by
  refine ⟨?_, rfl, fun i => ⟨Nat.le_add_right _ _, by have := hj i; omega⟩, ?_⟩
  · rw [fetchWithRetries, fetchGo]
    simp only [h0]
    norm_num
    rw [fetchGo]
    simp only [h1]
    norm_num
    rw [fetchGo]
    simp [h2]
  · intro mr att jit
    have h := fetchGo_sleeps_le (max 1 mr) att jit (max 1 mr) 0 [] (by omega)
    rw [fetchWithRetries]
    have hmax : 1 ≤ max 1 mr := le_max_left 1 mr
    simp only [List.length_nil, Nat.zero_add] at h
    omega

/-- C5 witness: a concrete fetch failing twice then succeeding returns the
successful body with the two expected backoff sleeps. -/
theorem fetch_retry_backoff_witness :
    fetchWithRetries 3 (fun n => if n = 2 then some ⟨200, [], "payload"⟩ else none)
        (fun i => i % 200)
      = (Except.ok ⟨true, 200, [], "payload"⟩, [200, 401]) := by
  have h := fetch_retry_backoff (fun n => if n = 2 then some ⟨200, [], "payload"⟩ else none)
    (fun i => i % 200) ⟨200, [], "payload"⟩ rfl rfl rfl
    (fun i => Nat.mod_lt i (by norm_num))
  simpa [mkFetchResult] using h.1

theorem foldl_minExpire_mem (p : String × CacheEntry) (l : MemCache) :
    l.foldl (fun best q => if q.2.expire < best.2.expire then q else best) p ∈ p :: l := by
  induction l generalizing p with
  | nil => simp
  | cons q rest ih =>
    simp only [List.foldl_cons]
    have h := ih (if q.2.expire < p.2.expire then q else p)
    rcases List.mem_cons.mp h with h | h
    · rw [h]
      by_cases hq : q.2.expire < p.2.expire
      · simp [hq]
      · simp [hq]
    · exact List.mem_cons_of_mem p (List.mem_cons_of_mem q h)

theorem foldl_minExpire_le (p : String × CacheEntry) (l : MemCache) :
    ∀ q ∈ p :: l,
      (l.foldl (fun best r => if r.2.expire < best.2.expire then r else best) p).2.expire
        ≤ q.2.expire := by
  induction l generalizing p with
  | nil =>
    intro q hq
    simp at hq
    simp [hq]
  | cons r rest ih =>
    intro q hq
    simp only [List.foldl_cons]
    have step_le_p : (if r.2.expire < p.2.expire then r else p).2.expire ≤ p.2.expire := by
      by_cases hr : r.2.expire < p.2.expire
      · simp [hr]; exact le_of_lt hr
      · simp [hr]
    have step_le_r : (if r.2.expire < p.2.expire then r else p).2.expire ≤ r.2.expire := by
      by_cases hr : r.2.expire < p.2.expire
      · simp [hr]
      · simp [hr]; exact le_of_not_lt hr
    have hself := ih (if r.2.expire < p.2.expire then r else p)
      (if r.2.expire < p.2.expire then r else p) (List.mem_cons_self _ _)
    rcases List.mem_cons.mp hq with h | h
    · exact le_trans hself (h ▸ step_le_p)
    · rcases List.mem_cons.mp h with h2 | h2
      · exact le_trans hself (h2 ▸ step_le_r)
      · exact ih (if r.2.expire < p.2.expire then r else p) q (List.mem_cons_of_mem _ h2)

theorem minExpireEntry_spec (m : MemCache) (hm : m ≠ []) :
    ∃ k e, minExpireEntry m = some (k, e) ∧ (k, e) ∈ m ∧
      ∀ q ∈ m, e.expire ≤ q.2.expire := by
  match m, hm with
  | p :: rest, _ =>
    have hmem := foldl_minExpire_mem p rest
    have hle := foldl_minExpire_le p rest
    exact ⟨(rest.foldl (fun best q => if q.2.expire < best.2.expire then q else best) p).1,
      (rest.foldl (fun best q => if q.2.expire < best.2.expire then q else best) p).2,
      by rw [minExpireEntry, Prod.mk.eta],
      by simpa only [Prod.mk.eta] using hmem,
      by simpa only [Prod.mk.eta] using hle⟩

/-! ## Claim C7 -/

/-- C7 (confirmed): whenever the insert performed by `ResourceCache.set`
makes the memory tier exceed `maxMemoryItems`, the entry that gets deleted
is one whose `expire` is minimal over all memory entries (the head of the
stable sort by `expire`), i.e. the soonest-expiring entry, not the
least-recently-used one. -/
theorem cacheSet_evicts_soonest_expiry (m : MemCache) (maxItems : Nat) (key d : String)
    (ttl : Option Int) (defTTL now : Int)
    (hover : (memSet key ⟨d, now + ttl.getD defTTL⟩ m).length > maxItems) :
    ∃ k e, minExpireEntry (memSet key ⟨d, now + ttl.getD defTTL⟩ m) = some (k, e) ∧
      (k, e) ∈ memSet key ⟨d, now + ttl.getD defTTL⟩ m ∧
      (∀ q ∈ memSet key ⟨d, now + ttl.getD defTTL⟩ m, e.expire ≤ q.2.expire) ∧
      cacheSet m maxItems key d ttl defTTL now
        = memDelete k (memSet key ⟨d, now + ttl.getD defTTL⟩ m) := by
  have hne : memSet key ⟨d, now + ttl.getD defTTL⟩ m ≠ [] := by
    intro h
    rw [h] at hover
    simp at hover
  obtain ⟨k, e, hmin, hmem, hle⟩ := minExpireEntry_spec _ hne
  refine ⟨k, e, hmin, hmem, hle, ?_⟩
  rw [cacheSet]
  simp only [hover, if_true, hmin]

/-- C7 witness: with `maxMemoryItems = 1`, inserting a second, sooner
expiring entry evicts that new entry itself (minimal expire), leaving the
older entry in place — visibly not LRU eviction. -/
theorem cacheSet_evicts_soonest_expiry_witness :
    ∃ k e, minExpireEntry (memSet "k2" ⟨"d2", 100 + 10⟩ [("k1", ⟨"d1", 500⟩)]) = some (k, e) ∧
      (k, e) ∈ memSet "k2" ⟨"d2", 100 + 10⟩ [("k1", ⟨"d1", 500⟩)] ∧
      (∀ q ∈ memSet "k2" ⟨"d2", 100 + 10⟩ [("k1", ⟨"d1", 500⟩)], e.expire ≤ q.2.expire) ∧
      cacheSet [("k1", ⟨"d1", 500⟩)] 1 "k2" "d2" (some 10) 300000 100
        = memDelete k (memSet "k2" ⟨"d2", 100 + 10⟩ [("k1", ⟨"d1", 500⟩)]) :=
  cacheSet_evicts_soonest_expiry [("k1", ⟨"d1", 500⟩)] 1 "k2" "d2" (some 10) 300000 100
    (by decide)

/-! ## Claim C8 -/

/-- C8 (confirmed): a jar read never returns a cookie whose `expires` lies
in the past: `getCookies` filters the session's cookies down to those with
no `expires` or a strictly future one, and only then joins the remaining
`name=value` pairs with `'; '`.  In particular any cookie with
`expires < now` is excluded from the filtered list. -/
theorem getCookies_excludes_expired (now : Int) (sessionCookies : List Cookie) :
    (∀ c ∈ validCookies now sessionCookies, ∀ e, c.expires = some e → now < e) ∧
    (∀ c ∈ sessionCookies, ∀ e, c.expires = some e → e < now →
      c ∉ validCookies now sessionCookies) ∧
    getCookies now sessionCookies
      = String.intercalate "; " ((validCookies now sessionCookies).map cookiePair) := by
  refine ⟨?_, ?_, rfl⟩
  · intro c hc e he
    have h := (List.mem_filter.mp hc).2
    rw [he] at h
    simpa using h
  · intro c _ e he hpast hmem
    have h := (List.mem_filter.mp hmem).2
    rw [he] at h
    simp at h
    omega

/-- C8 witness: a cookie that expired at time 50, read at time 100, is
absent from the filtered list, and the returned header holds only the
live cookie. -/
theorem getCookies_excludes_expired_witness :
    (⟨"a", some "1", "/", none, some 50, false, false, none⟩ : Cookie)
      ∉ validCookies 100 [⟨"a", some "1", "/", none, some 50, false, false, none⟩,
          ⟨"b", some "2", "/", none, none, false, false, none⟩] ∧
    getCookies 100 [⟨"a", some "1", "/", none, some 50, false, false, none⟩,
        ⟨"b", some "2", "/", none, none, false, false, none⟩] = "b=2" := by
  constructor
  · exact (getCookies_excludes_expired 100 _).2.1 _ (List.mem_cons_self _ _) 50 rfl
      (by norm_num)
  · rfl

theorem mk_data_eq (s : String) : String.mk s.data = s := rfl

theorem splitCharAux_ne_nil (sep : Char) (l : List Char) : splitCharAux sep l ≠ [] := by
  induction l with
  | nil => simp [splitCharAux]
  | cons c rest ih =>
    rw [splitCharAux]
    rcases hsp : splitCharAux sep rest with _ | ⟨hd, tl⟩
    · exact absurd hsp ih
    · by_cases hc : c = sep <;> simp [hc]

theorem splitCharAux_no_sep (sep : Char) (l : List Char) (h : sep ∉ l) :
    splitCharAux sep l = [l] := by
  induction l with
  | nil => rfl
  | cons c rest ih =>
    have hc : c ≠ sep := fun hh => h (hh ▸ List.mem_cons_self c rest)
    have hrest : sep ∉ rest := fun hm => h (List.mem_cons_of_mem c hm)
    rw [splitCharAux, ih hrest]
    simp [hc]

theorem splitCharAux_append (sep : Char) (l₁ l₂ : List Char) (h : sep ∉ l₁) :
    splitCharAux sep (l₁ ++ sep :: l₂) = l₁ :: splitCharAux sep l₂ := by
  induction l₁ with
  | nil =>
    simp only [List.nil_append]
    rw [splitCharAux]
    rcases hsp : splitCharAux sep l₂ with _ | ⟨hd, tl⟩
    · exact absurd hsp (splitCharAux_ne_nil sep l₂)
    · simp
  | cons c rest ih =>
    have hc : c ≠ sep := fun hh => h (hh ▸ List.mem_cons_self c rest)
    have hrest : sep ∉ rest := fun hm => h (List.mem_cons_of_mem c hm)
    simp only [List.cons_append]
    rw [splitCharAux, ih hrest]
    simp [hc]

theorem dropWhile_eq_self_of_none {p : Char → Bool} (l : List Char)
    (h : ∀ c ∈ l, p c = false) : l.dropWhile p = l := by
  cases l with
  | nil => rfl
  | cons c rest => simp [List.dropWhile_cons, h c (List.mem_cons_self c rest)]

theorem jsTrim_eq_self (s : String) (h : ∀ c ∈ s.data, jsWhitespace c = false) :
    jsTrim s = s := by
  show String.mk ((s.data.dropWhile jsWhitespace).reverse.dropWhile jsWhitespace).reverse = s
  rw [dropWhile_eq_self_of_none s.data h,
    dropWhile_eq_self_of_none _ (fun c hc => h c (by simpa using hc)),
    List.reverse_reverse]

/-! ## Claim C10 -/

/-- C10 (confirmed): `parseSetCookie` splits the leading name-value pair on
every `=` and keeps only the first two fields, so a `Set-Cookie` whose
cookie value itself contains `=` — `name=v₁=v₂` with `=`-free `name` and
`v₁` — stores `v₁` alone as the value; in particular the stored value
differs from the full original value `v₁=v₂`, which therefore does not
round-trip through the jar. -/
theorem parseSetCookie_truncates_value (parseDate : String → Int) (n v₁ v₂ : String)
    (hn : ∀ c ∈ n.data, c ≠ '=' ∧ c ≠ ';' ∧ jsWhitespace c = false)
    (hv₁ : ∀ c ∈ v₁.data, c ≠ '=' ∧ c ≠ ';' ∧ jsWhitespace c = false)
    (hv₂ : ∀ c ∈ v₂.data, c ≠ ';' ∧ jsWhitespace c = false) :
    ∃ ck, parseSetCookie parseDate (n ++ "=" ++ v₁ ++ "=" ++ v₂) = some ck ∧
      ck.name = n ∧ ck.value = some v₁ ∧ ck.value ≠ some (v₁ ++ "=" ++ v₂) := by
  have hdata : (n ++ "=" ++ v₁ ++ "=" ++ v₂).data
      = n.data ++ '=' :: (v₁.data ++ '=' :: v₂.data) := by
    simp [String.data_append]
  have hne : n ++ "=" ++ v₁ ++ "=" ++ v₂ ≠ "" := by
    intro h
    have h2 := congrArg String.data h
    rw [hdata] at h2
    cases n.data <;> simp at h2
  have hnosemi : (';' : Char) ∉ (n ++ "=" ++ v₁ ++ "=" ++ v₂).data := by
    rw [hdata]
    intro hmem
    rcases List.mem_append.mp hmem with hin | hin
    · exact (hn ';' hin).2.1 rfl
    · rcases List.mem_cons.mp hin with hin | hin
      · simp at hin
      · rcases List.mem_append.mp hin with hin | hin
        · exact (hv₁ ';' hin).2.1 rfl
        · rcases List.mem_cons.mp hin with hin | hin
          · simp at hin
          · exact (hv₂ ';' hin).1 rfl
  have hnows : ∀ c ∈ (n ++ "=" ++ v₁ ++ "=" ++ v₂).data, jsWhitespace c = false := by
    rw [hdata]
    intro c hmem
    rcases List.mem_append.mp hmem with hin | hin
    · exact (hn c hin).2.2
    · rcases List.mem_cons.mp hin with hin | hin
      · subst hin; decide
      · rcases List.mem_append.mp hin with hin | hin
        · exact (hv₁ c hin).2.2
        · rcases List.mem_cons.mp hin with hin | hin
          · subst hin; decide
          · exact (hv₂ c hin).2
  have hsplit1 : jsSplit ';' (n ++ "=" ++ v₁ ++ "=" ++ v₂)
      = [n ++ "=" ++ v₁ ++ "=" ++ v₂] := by
    rw [jsSplit, splitCharAux_no_sep ';' _ hnosemi]
    rfl
  have hnEq : ('=' : Char) ∉ n.data := fun hm => (hn '=' hm).1 rfl
  have hv₁Eq : ('=' : Char) ∉ v₁.data := fun hm => (hv₁ '=' hm).1 rfl
  have hsplitEq : jsSplit '=' (n ++ "=" ++ v₁ ++ "=" ++ v₂)
      = n :: v₁ :: (splitCharAux '=' v₂.data).map String.mk := by
    rw [jsSplit, hdata, splitCharAux_append '=' n.data _ hnEq,
      splitCharAux_append '=' v₁.data _ hv₁Eq]
    rfl
  have htrim : jsTrim (n ++ "=" ++ v₁ ++ "=" ++ v₂) = n ++ "=" ++ v₁ ++ "=" ++ v₂ :=
    jsTrim_eq_self _ hnows
  refine ⟨⟨n, some v₁, "/", none, none, false, false, some "Lax"⟩, ?_, rfl, rfl, ?_⟩
  · rw [parseSetCookie, if_neg hne, hsplit1]
    simp only [List.map_cons, List.map_nil, htrim, hsplitEq]
    simp
  · intro hcontr
    have hv : v₁ = v₁ ++ "=" ++ v₂ := Option.some_inj.mp hcontr
    have h3 := congrArg (fun s : String => s.data.length) hv
    simp only [String.data_append, List.length_append, List.length_cons] at h3
    omega

/-- C10 witness: `token=abc=def` parses to a cookie whose stored value is
`abc`, not `abc=def`. -/
theorem parseSetCookie_truncates_value_witness :
    ∃ ck, parseSetCookie (fun _ => 0) ("token" ++ "=" ++ "abc" ++ "=" ++ "def") = some ck ∧
      ck.name = "token" ∧ ck.value = some "abc" ∧ ck.value ≠ some ("abc" ++ "=" ++ "def") :=
  parseSetCookie_truncates_value (fun _ => 0) "token" "abc" "def"
    (by decide) (by decide) (by decide)

/-! ## Claim C2 -/

set_option maxRecDepth 4000 in
/-- C2, counterexample: rewriting already-rewritten HTML again with the
same base is not a no-op.  The code has no exclusion for proxy-form URLs:
an anchor already rewritten to `/proxy?url=…` is resolved against the base
and wrapped a second time, and a further navigation shim is appended. -/
theorem rewrite_not_idempotent_cex :
    rewriteHtml DEFAULT_OPTS "https://example.com/page"
        (rewriteHtml DEFAULT_OPTS "https://example.com/page" ⟨[⟨"a", [("href", "/x")]⟩], 0⟩)
      ≠ rewriteHtml DEFAULT_OPTS "https://example.com/page" ⟨[⟨"a", [("href", "/x")]⟩], 0⟩ ∧
    (rewriteHtml DEFAULT_OPTS "https://example.com/page"
        (rewriteHtml DEFAULT_OPTS "https://example.com/page"
          ⟨[⟨"a", [("href", "/x")]⟩], 0⟩)).elements
      = [⟨"a", [("href",
          "/proxy?url=https%3A%2F%2Fexample.com%2Fproxy%3Furl%3Dhttps%253A%252F%252Fexample.com%252Fx")]⟩] := by
  exact ⟨by decide, rfl⟩

/-- C2 (amended): the HTML rewrite is never idempotent — a second rewrite
with the same base always differs from the first, because each pass appends
one more navigation shim to the body (and proxy-form references, which are
not excluded, get wrapped again). -/
theorem rewrite_never_idempotent :
    (∀ (base : String) (doc : Doc),
      rewriteHtml DEFAULT_OPTS base (rewriteHtml DEFAULT_OPTS base doc)
        ≠ rewriteHtml DEFAULT_OPTS base doc) ∧
    (∀ (base : String) (doc : Doc),
      (rewriteHtml DEFAULT_OPTS base doc).shims = doc.shims + 1) := by
  constructor
  · intro base doc h
    have h2 := congrArg Doc.shims h
    simp [rewriteHtml] at h2
  · intro base doc
    rfl

/-- C2 witness: the amended non-idempotence facts evaluated on a concrete
document. -/
theorem rewrite_never_idempotent_witness :
    rewriteHtml DEFAULT_OPTS "https://example.com/page"
        (rewriteHtml DEFAULT_OPTS "https://example.com/page" ⟨[], 0⟩)
      ≠ rewriteHtml DEFAULT_OPTS "https://example.com/page" ⟨[], 0⟩ ∧
    (rewriteHtml DEFAULT_OPTS "https://example.com/page" (⟨[], 0⟩ : Doc)).shims = 0 + 1 :=
  ⟨rewrite_never_idempotent.1 "https://example.com/page" ⟨[], 0⟩,
   rewrite_never_idempotent.2 "https://example.com/page" ⟨[], 0⟩⟩

/-! ## Claim C3 -/

/-- C3, counterexample: a fragment-only reference is left alone only on
anchors; on an `img` the same `#top` src is resolved against the base and
rewritten, contradicting the claim's "every rewritten element kind". -/
theorem rewrite_fragment_img_rewritten_cex :
    rewriteHtml DEFAULT_OPTS "https://example.com/page" ⟨[⟨"img", [("src", "#top")]⟩], 0⟩
      = ⟨[⟨"img", [("src", "/resource?url=https%3A%2F%2Fexample.com%2Fpage%23top")]⟩], 1⟩ ∧
    some "/resource?url=https%3A%2F%2Fexample.com%2Fpage%23top" ≠ some "#top" := by
  exact ⟨rfl, by decide⟩

/-- C3 (amended): the non-proxiable exclusions (empty, fragment-only,
`javascript:`, `mailto:`) are applied exactly by `shouldIgnoreUrl`, and
only the anchor block consults it: an anchor with an ignored href is left
fully unchanged, while for every other rewritten element kind only an
empty (falsy) value short-circuits the rewrite. -/
theorem ignore_rules_anchor_only (base : String) :
    (∀ h : String, shouldIgnoreUrl h = true ↔
      (jsTrim h = "" ∨ jsStartsWith (jsTrim h) "#" = true
        ∨ jsStartsWith (asciiLower (jsTrim h)) "javascript:" = true
        ∨ jsStartsWith (asciiLower (jsTrim h)) "mailto:" = true)) ∧
    (∀ attrs href, lookupAttr "href" attrs = some href → shouldIgnoreUrl href = true →
      rewriteA DEFAULT_OPTS base ⟨"a", attrs⟩ = ⟨"a", attrs⟩) ∧
    (∀ attrs, lookupAttr "href" attrs = some "" →
      rewriteLink DEFAULT_OPTS base ⟨"link", attrs⟩ = ⟨"link", attrs⟩) ∧
    (∀ attrs, lookupAttr "src" attrs = some "" →
      rewriteScript DEFAULT_OPTS base ⟨"script", attrs⟩ = ⟨"script", attrs⟩) ∧
    (∀ attrs, lookupAttr "src" attrs = some "" →
      lookupAttr "src" (rewriteImg DEFAULT_OPTS base ⟨"img", attrs⟩).attrs = some "") ∧
    (∀ attrs, lookupAttr "src" attrs = some "" →
      lookupAttr "src" (rewriteSourceEl DEFAULT_OPTS base ⟨"source", attrs⟩).attrs
        = some "") ∧
    (∀ attrs, lookupAttr "src" attrs = some "" →
      rewriteIframe DEFAULT_OPTS base ⟨"iframe", attrs⟩ = ⟨"iframe", attrs⟩) ∧
    (∀ attrs, lookupAttr "action" attrs = some "" →
      rewriteFormEl DEFAULT_OPTS base ⟨"form", attrs⟩ = ⟨"form", attrs⟩) := by
  refine ⟨?_, ?_, ?_, ?_, ?_, ?_, ?_, ?_⟩
  · intro h
    by_cases h0 : h = ""
    · subst h0
      constructor
      · intro _; left; rfl
      · intro _; rfl
    · rw [shouldIgnoreUrl, if_neg h0]
      dsimp only
      split_ifs with h1 h2 h3
      · simp only [Bool.or_eq_true, decide_eq_true_eq] at h1
        simp only [true_iff]
        rcases h1 with h1 | h1
        · exact Or.inl h1
        · exact Or.inr (Or.inl h1)
      · simp only [true_iff]
        exact Or.inr (Or.inr (Or.inl h2))
      · simp only [true_iff]
        exact Or.inr (Or.inr (Or.inr h3))
      · simp only [Bool.or_eq_true, decide_eq_true_eq, not_or] at h1
        simp [h1.1, h1.2, h2, h3]
  · intro attrs href h1 h2
    simp [rewriteA, h1, h2]
  · intro attrs h1
    simp [rewriteLink, h1]
  · intro attrs h1
    simp [rewriteScript, h1]
  · intro attrs h1
    show lookupAttr "src" (rewriteImg DEFAULT_OPTS base ⟨"img", attrs⟩).attrs = some ""
    simp only [rewriteImg, h1, imgSrcStage_empty]
    rw [lookupAttr_srcsetStage_ne _ _ _ _ (by decide),
      lookupAttr_imgDataStage_ne _ _ _ _ _ (by decide)]
    exact h1
  · intro attrs h1
    show lookupAttr "src" (rewriteSourceEl DEFAULT_OPTS base ⟨"source", attrs⟩).attrs = some ""
    simp only [rewriteSourceEl, h1, imgSrcStage_empty]
    rw [lookupAttr_srcsetStage_ne _ _ _ _ (by decide)]
    exact h1
  · intro attrs h1
    simp [rewriteIframe, h1]
  · intro attrs h1
    simp [rewriteFormEl, h1]

/-- C3 witness: an anchor whose href is `javascript:void(0)` is left fully
unchanged by the anchor block. -/
theorem ignore_rules_anchor_only_witness :
    rewriteA DEFAULT_OPTS "https://example.com/page"
        ⟨"a", [("href", "javascript:void(0)")]⟩
      = ⟨"a", [("href", "javascript:void(0)")]⟩ :=
  (ignore_rules_anchor_only "https://example.com/page").2.1
    [("href", "javascript:void(0)")] "javascript:void(0)" rfl (by decide)

/-! ## Claim C1 -/

/-- C1, counterexample: the engine has two routes, not one.  The claim's
own scenario fails: `<img src="/logo.png">` at base
`https://example.com/page` is rewritten through the asset route
`/resource?url=…`, not `/proxy?url=…`. -/
theorem rewrite_img_uses_resource_route_cex :
    rewriteHtml DEFAULT_OPTS "https://example.com/page"
        ⟨[⟨"img", [("src", "/logo.png")]⟩], 0⟩
      = ⟨[⟨"img", [("src", "/resource?url=https%3A%2F%2Fexample.com%2Flogo.png")]⟩], 1⟩ ∧
    "/resource?url=https%3A%2F%2Fexample.com%2Flogo.png"
      ≠ "/proxy?url=https%3A%2F%2Fexample.com%2Flogo.png" := by
  exact ⟨rfl, by decide⟩

/-- C1 (amended): every reference the engine rewrites is replaced by a
route prefix followed by the percent-encoding of the reference resolved
against the base — with the navigation route `/proxy?url=` for anchor
hrefs, iframe srcs and form actions, and the asset route `/resource?url=`
for link hrefs, script srcs, img src/data-src/srcset candidates and source
src/srcset candidates; the img scenario yields
`/resource?url=https%3A%2F%2Fexample.com%2Flogo.png`. -/
theorem rewrite_reference_routes (base : String) :
    (∀ (attrs : List (String × String)) (href abs : String),
      lookupAttr "href" attrs = some href → shouldIgnoreUrl href = false →
      absify href base = some abs →
      (rewriteA DEFAULT_OPTS base ⟨"a", attrs⟩).attrs
        = setAttr "href" ("/proxy?url=" ++ encodeURIComponent abs) attrs) ∧
    (∀ (attrs : List (String × String)) (href abs : String),
      lookupAttr "href" attrs = some href → href ≠ "" →
      absify href base = some abs →
      (rewriteLink DEFAULT_OPTS base ⟨"link", attrs⟩).attrs
        = setAttr "href" ("/resource?url=" ++ encodeURIComponent abs) attrs) ∧
    (∀ (attrs : List (String × String)) (src abs : String),
      lookupAttr "src" attrs = some src → src ≠ "" →
      absify src base = some abs →
      (rewriteScript DEFAULT_OPTS base ⟨"script", attrs⟩).attrs
        = removeAttr "crossorigin" (removeAttr "integrity"
            (setAttr "src" ("/resource?url=" ++ encodeURIComponent abs) attrs))) ∧
    (∀ (attrs : List (String × String)) (s abs : String),
      lookupAttr "src" attrs = some s → s ≠ "" →
      absify s base = some abs →
      lookupAttr "src" (rewriteImg DEFAULT_OPTS base ⟨"img", attrs⟩).attrs
        = some ("/resource?url=" ++ encodeURIComponent abs)) ∧
    (∀ (attrs : List (String × String)) (d abs : String),
      jsOr (jsOr (lookupAttr "data-src" attrs) (lookupAttr "data-lazy" attrs))
        (lookupAttr "data-original" attrs) = some d → d ≠ "" →
      absify d base = some abs →
      lookupAttr "data-src" (rewriteImg DEFAULT_OPTS base ⟨"img", attrs⟩).attrs
        = some ("/resource?url=" ++ encodeURIComponent abs)) ∧
    (∀ (attrs : List (String × String)) (ss : String),
      lookupAttr "srcset" attrs = some ss → ss ≠ "" →
      lookupAttr "srcset" (rewriteImg DEFAULT_OPTS base ⟨"img", attrs⟩).attrs
        = some (rewriteSrcsetValue DEFAULT_OPTS base ss)) ∧
    (∀ (p u abs : String) (desc : Option String),
      wsSplit2 p = (u, desc) → absify u base = some abs →
      rewriteSrcsetPart DEFAULT_OPTS base p
        = "/resource?url=" ++ encodeURIComponent abs
          ++ (match desc with | some d => if d = "" then "" else " " ++ d | none => "")) ∧
    (∀ (attrs : List (String × String)) (s abs : String),
      lookupAttr "src" attrs = some s → s ≠ "" →
      absify s base = some abs →
      lookupAttr "src" (rewriteSourceEl DEFAULT_OPTS base ⟨"source", attrs⟩).attrs
        = some ("/resource?url=" ++ encodeURIComponent abs)) ∧
    (∀ (attrs : List (String × String)) (ss : String),
      lookupAttr "srcset" attrs = some ss → ss ≠ "" →
      lookupAttr "srcset" (rewriteSourceEl DEFAULT_OPTS base ⟨"source", attrs⟩).attrs
        = some (rewriteSrcsetValue DEFAULT_OPTS base ss)) ∧
    (∀ (attrs : List (String × String)) (src abs : String),
      lookupAttr "src" attrs = some src → src ≠ "" →
      absify src base = some abs →
      (rewriteIframe DEFAULT_OPTS base ⟨"iframe", attrs⟩).attrs
        = setAttr "src" ("/proxy?url=" ++ encodeURIComponent abs) attrs) ∧
    (∀ (attrs : List (String × String)) (action abs : String),
      lookupAttr "action" attrs = some action → action ≠ "" →
      absify action base = some abs →
      (rewriteFormEl DEFAULT_OPTS base ⟨"form", attrs⟩).attrs
        = setAttr "action" ("/proxy?url=" ++ encodeURIComponent abs) attrs) ∧
    rewriteHtml DEFAULT_OPTS "https://example.com/page"
        ⟨[⟨"img", [("src", "/logo.png")]⟩], 0⟩
      = ⟨[⟨"img", [("src", "/resource?url=https%3A%2F%2Fexample.com%2Flogo.png")]⟩], 1⟩ := by
  refine ⟨?_, ?_, ?_, ?_, ?_, ?_, ?_, ?_, ?_, ?_, ?_, rfl⟩
  · intro attrs href abs h1 h2 h3
    simp [rewriteA, h1, h2, h3, proxifyUrl, DEFAULT_OPTS]
  · intro attrs href abs h1 h2 h3
    simp [rewriteLink, h1, h2, h3, proxifyUrl, DEFAULT_OPTS]
  · intro attrs src abs h1 h2 h3
    simp [rewriteScript, h1, h2, h3, proxifyUrl, DEFAULT_OPTS]
  · intro attrs s abs h1 h2 h3
    show lookupAttr "src" (rewriteImg DEFAULT_OPTS base ⟨"img", attrs⟩).attrs = _
    simp only [rewriteImg, h1]
    rw [imgSrcStage_rewrites _ _ _ _ _ h2 h3,
      lookupAttr_srcsetStage_ne _ _ _ _ (by decide),
      lookupAttr_imgDataStage_ne _ _ _ _ _ (by decide),
      lookupAttr_setAttr_self]
    rfl
  · intro attrs d abs h1 h2 h3
    show lookupAttr "data-src" (rewriteImg DEFAULT_OPTS base ⟨"img", attrs⟩).attrs = _
    simp only [rewriteImg, h1]
    rw [imgDataStage_rewrites _ _ _ _ _ h2 h3,
      lookupAttr_srcsetStage_ne _ _ _ _ (by decide),
      lookupAttr_setAttr_self]
    rfl
  · intro attrs ss h1 h2
    show lookupAttr "srcset" (rewriteImg DEFAULT_OPTS base ⟨"img", attrs⟩).attrs = _
    have hl : lookupAttr "srcset"
        (imgDataStage DEFAULT_OPTS base
          (jsOr (jsOr (lookupAttr "data-src" attrs) (lookupAttr "data-lazy" attrs))
            (lookupAttr "data-original" attrs))
          (imgSrcStage DEFAULT_OPTS base (lookupAttr "src" attrs) attrs)) = some ss := by
      rw [lookupAttr_imgDataStage_ne _ _ _ _ _ (by decide),
        lookupAttr_imgSrcStage_ne _ _ _ _ _ (by decide)]
      exact h1
    simp only [rewriteImg]
    rw [srcsetStage_rewrites _ _ _ _ hl h2, lookupAttr_setAttr_self]
  · intro p u abs desc hw habs
    simp [rewriteSrcsetPart, hw, habs, proxifyUrl, DEFAULT_OPTS]
  · intro attrs s abs h1 h2 h3
    show lookupAttr "src" (rewriteSourceEl DEFAULT_OPTS base ⟨"source", attrs⟩).attrs = _
    simp only [rewriteSourceEl, h1]
    rw [imgSrcStage_rewrites _ _ _ _ _ h2 h3,
      lookupAttr_srcsetStage_ne _ _ _ _ (by decide),
      lookupAttr_setAttr_self]
    rfl
  · intro attrs ss h1 h2
    show lookupAttr "srcset" (rewriteSourceEl DEFAULT_OPTS base ⟨"source", attrs⟩).attrs = _
    have hl : lookupAttr "srcset"
        (imgSrcStage DEFAULT_OPTS base (lookupAttr "src" attrs) attrs) = some ss := by
      rw [lookupAttr_imgSrcStage_ne _ _ _ _ _ (by decide)]
      exact h1
    simp only [rewriteSourceEl]
    rw [srcsetStage_rewrites _ _ _ _ hl h2, lookupAttr_setAttr_self]
  · intro attrs src abs h1 h2 h3
    simp [rewriteIframe, h1, h2, h3, proxifyUrl, DEFAULT_OPTS]
  · intro attrs action abs h1 h2 h3
    simp [rewriteFormEl, h1, h2, h3, proxifyUrl, DEFAULT_OPTS]

/-- C1 witness: the anchor clause evaluated at `<a href="/x">` under base
`https://example.com/page`. -/
theorem rewrite_reference_routes_witness :
    (rewriteA DEFAULT_OPTS "https://example.com/page" ⟨"a", [("href", "/x")]⟩).attrs
      = setAttr "href" ("/proxy?url=" ++ encodeURIComponent "https://example.com/x")
          [("href", "/x")] :=
  (rewrite_reference_routes "https://example.com/page").1 [("href", "/x")] "/x"
    "https://example.com/x" rfl (by decide) rfl
